import Mathlib

/-!
Shallow embedding of the forest-cover data pipeline
(`src/clean_data.py` and `src/analyze_and_plot.py`).

Tables are lists of records; pandas NaN-able numeric columns are `Option ℚ`.
File I/O and diagnostic printing are out of scope; each script's data
transformation is a pure function on tables.

Exact rational arithmetic is written with the kernel-computable operations
`qadd`, `qsub`, `qmul`, `qdiv` (cross-multiplication followed by
`Rat.divInt`); the theorems `qadd_eq`, `qsub_eq`, `qmul_eq`, `qdiv_eq`,
`sumQ_eq` below prove them equal to `+`, `-`, `*`, `/` and `List.sum`
on `ℚ`, so every statement about them is a statement about the field
operations.  Likewise `pyStrip` and `strLt` spell out Python's
`str.strip()` and string comparison over the character list.
-/

namespace Forest

/-- Addition on `ℚ` by cross multiplication; equals `a + b` (`qadd_eq`). -/
def qadd (a b : ℚ) : ℚ :=
  Rat.divInt (a.num * (b.den : ℤ) + b.num * (a.den : ℤ)) ((a.den : ℤ) * (b.den : ℤ))

/-- Subtraction on `ℚ` by cross multiplication; equals `a - b` (`qsub_eq`). -/
def qsub (a b : ℚ) : ℚ :=
  Rat.divInt (a.num * (b.den : ℤ) - b.num * (a.den : ℤ)) ((a.den : ℤ) * (b.den : ℤ))

/-- Multiplication on `ℚ`; equals `a * b` (`qmul_eq`). -/
def qmul (a b : ℚ) : ℚ :=
  Rat.divInt (a.num * b.num) ((a.den : ℤ) * (b.den : ℤ))

/-- Division on `ℚ`; equals `a / b` (`qdiv_eq`), in particular `qdiv a 0 = 0`. -/
def qdiv (a b : ℚ) : ℚ :=
  Rat.divInt (a.num * (b.den : ℤ)) ((a.den : ℤ) * b.num)

/-- Sum of a list of rationals; equals `List.sum` (`sumQ_eq`). -/
def sumQ : List ℚ → ℚ
  | [] => 0
  | a :: l => qadd a (sumQ l)

/-- Python's `str.strip()` (pandas `.str.strip()`): remove leading and
trailing whitespace. -/
def pyStrip (s : String) : String :=
  ⟨((s.data.dropWhile Char.isWhitespace).reverse.dropWhile Char.isWhitespace).reverse⟩

/-- Lexicographic (code-point) order on character lists: Python's `<` on
strings, the order pandas sorts string columns by. -/
def lexLt : List Char → List Char → Prop
  | [], [] => False
  | [], _ :: _ => True
  | _ :: _, [] => False
  | a :: as, b :: bs => a < b ∨ (a = b ∧ lexLt as bs)

def decLexLt : (x y : List Char) → Decidable (lexLt x y)
  | [], [] => .isFalse (fun h => h)
  | [], _ :: _ => .isTrue trivial
  | _ :: _, [] => .isFalse (fun h => h)
  | a :: as, b :: bs =>
    haveI : Decidable (lexLt as bs) := decLexLt as bs
    inferInstanceAs (Decidable (a < b ∨ (a = b ∧ lexLt as bs)))

instance : ∀ x y : List Char, Decidable (lexLt x y) := decLexLt

/-- String comparison on the underlying characters. -/
def strLt (a b : String) : Prop :=
  lexLt a.data b.data

instance : ∀ a b : String, Decidable (strLt a b) := fun a b =>
  inferInstanceAs (Decidable (lexLt a.data b.data))

/-- A raw CSV cell as handed over by the external CSV reader: a numeric value,
an empty/missing cell (NaN), or text that does not parse as a number
(`pd.to_numeric(..., errors='coerce')` turns exactly the latter two into NaN). -/
inductive RawCell where
  | missing : RawCell
  | num : ℚ → RawCell
  | text : String → RawCell
deriving DecidableEq

/-- One row of the raw table `global_forest_cover.csv`, columns
Year, Region, Forest_Cover_ha.  The Region cell is either present
(a string, possibly all whitespace) or missing (NaN). -/
structure RawRow where
  year : RawCell
  region : Option String
  cover : RawCell
deriving DecidableEq

/-- `pd.to_numeric(_, errors='coerce')` on one cell (clean_data.py lines 26-27). -/
def toNumeric : RawCell → Option ℚ
  | .num q => some q
  | .missing => none
  | .text _ => none

/-- `.astype(str)` on the Region cell (clean_data.py line 28): a missing
value (float NaN) prints as the literal string "nan". -/
def regionStr : Option String → String
  | none => "nan"
  | some s => s

/-- A row of the working DataFrame after type coercion.  `idx` records the
row's position in the raw input (the pandas row label), used to state
which output row came from which input row. -/
structure CRow where
  idx : ℕ
  year : Option ℚ
  region : String
  cover : Option ℚ
deriving DecidableEq

/-- Type coercion of the whole table, numbering rows from `i`
(clean_data.py lines 26-28). -/
def coerceRows : ℕ → List RawRow → List CRow
  | _, [] => []
  | i, r :: rs => ⟨i, toNumeric r.year, regionStr r.region, toNumeric r.cover⟩ :: coerceRows (i + 1) rs

/-- `df.dropna(subset=['Year'])` (clean_data.py line 44); in the loop over
`numeric_cols` the `Year` branch runs before the `Forest_Cover_ha` branch. -/
def dropnaYear (t : List CRow) : List CRow :=
  t.filter (fun r => r.year.isSome)

/-- pandas `Series.median()` over the non-missing values already extracted:
sort ascending; odd count takes the middle element, even count averages the
two middle elements; an empty list of values has median NaN (`none`). -/
def median (l : List ℚ) : Option ℚ :=
  match List.insertionSort (· ≤ ·) l with
  | [] => none
  | a :: t =>
    let n := t.length + 1
    if n % 2 = 1 then some ((a :: t).getD (n / 2) 0)
    else some (qdiv (qadd ((a :: t).getD (n / 2 - 1) 0) ((a :: t).getD (n / 2) 0)) 2)

/-- `Series.fillna`: keep the value if present, otherwise use the fallback. -/
def fillna (v fallback : Option ℚ) : Option ℚ :=
  match v with
  | some x => some x
  | none => fallback

/-- The non-missing `Forest_Cover_ha` values of the `(Region, Year)` group
with key `(rg, y)` (the values pandas' `groupby(['Region', 'Year'])` median
is taken over, with `skipna`). -/
def groupVals (t : List CRow) (rg : String) (y : ℚ) : List ℚ :=
  (t.filter (fun x => decide (x.region = rg) && decide (x.year = some y))).filterMap (fun x => x.cover)

/-- The per-row value of `df.groupby(['Region', 'Year'])['Forest_Cover_ha']
.transform('median')`; a row whose Year is NaN belongs to no group and gets NaN. -/
def groupMedian (t : List CRow) (r : CRow) : Option ℚ :=
  match r.year with
  | some y => median (groupVals t r.region y)
  | none => none

/-- Tier-1 imputation (clean_data.py lines 37-38): fill each missing
Forest_Cover_ha with the median of its `(Region, Year)` group. -/
def fillGroupMedian (t : List CRow) : List CRow :=
  t.map (fun r => { r with cover := fillna r.cover (groupMedian t r) })

/-- The non-missing `Forest_Cover_ha` values of all rows of Region `rg`. -/
def regionVals (t : List CRow) (rg : String) : List ℚ :=
  (t.filter (fun x => decide (x.region = rg))).filterMap (fun x => x.cover)

/-- Tier-2 imputation (clean_data.py lines 40-41): fill each still-missing
Forest_Cover_ha with the median of its Region's column values (note: the
medians are computed on the column as it stands after the tier-1 fill). -/
def fillRegionMedian (t : List CRow) : List CRow :=
  t.map (fun r => { r with cover := fillna r.cover (median (regionVals t r.region)) })

/-- `df = df[df['Region'].str.strip() != '']` (clean_data.py line 47). -/
def filterRegionNonBlank (t : List CRow) : List CRow :=
  t.filter (fun r => !(pyStrip r.region == ""))

/-- The ordering on Option-valued Year used by the sort; NaN sorts last
(pandas `na_position='last'`); no NaN Year actually reaches the sort. -/
def yearLe : Option ℚ → Option ℚ → Prop
  | none, none => True
  | none, some _ => False
  | some _, none => True
  | some a, some b => a ≤ b

instance : ∀ a b : Option ℚ, Decidable (yearLe a b)
  | none, none => .isTrue trivial
  | none, some _ => .isFalse (fun h => h)
  | some _, none => .isTrue trivial
  | some a, some b => inferInstanceAs (Decidable (a ≤ b))

/-- The sort key of `df.sort_values(['Region', 'Year'])` (clean_data.py
line 50): Region ascending, then Year ascending. -/
def rowLe (a b : CRow) : Prop :=
  strLt a.region b.region ∨ (a.region = b.region ∧ yearLe a.year b.year)

instance : DecidableRel rowLe := fun a b =>
  inferInstanceAs (Decidable (strLt a.region b.region ∨ (a.region = b.region ∧ yearLe a.year b.year)))

instance : IsTotal CRow rowLe where
  total := by
    have tri : ∀ x y : List Char, lexLt x y ∨ x = y ∨ lexLt y x := by
      intro x
      induction x with
      | nil =>
        intro y
        cases y with
        | nil => exact Or.inr (Or.inl rfl)
        | cons b bs => exact Or.inl trivial
      | cons a as ih =>
        intro y
        cases y with
        | nil => exact Or.inr (Or.inr trivial)
        | cons b bs =>
          rcases lt_trichotomy a b with h | h | h
          · exact Or.inl (Or.inl h)
          · rcases ih bs with h2 | h2 | h2
            · exact Or.inl (Or.inr ⟨h, h2⟩)
            · exact Or.inr (Or.inl (by rw [h, h2]))
            · exact Or.inr (Or.inr (Or.inr ⟨h.symm, h2⟩))
          · exact Or.inr (Or.inr (Or.inl h))
    intro a b
    rcases tri a.region.data b.region.data with h | h | h
    · exact Or.inl (Or.inl h)
    · have hreg : a.region = b.region := String.ext h
      have hy : yearLe a.year b.year ∨ yearLe b.year a.year := by
        cases a.year with
        | none =>
          cases b.year with
          | none => exact Or.inl trivial
          | some y => exact Or.inr trivial
        | some x =>
          cases b.year with
          | none => exact Or.inl trivial
          | some y => exact le_total x y
      rcases hy with hy | hy
      · exact Or.inl (Or.inr ⟨hreg, hy⟩)
      · exact Or.inr (Or.inr ⟨hreg.symm, hy⟩)
    · exact Or.inr (Or.inl h)

instance : IsTrans CRow rowLe where
  trans := by
    have ltr : ∀ x y z : List Char, lexLt x y → lexLt y z → lexLt x z := by
      intro x
      induction x with
      | nil =>
        intro y z hxy hyz
        cases y with
        | nil => exact hxy.elim
        | cons b bs =>
          cases z with
          | nil => exact hyz.elim
          | cons c cs => exact trivial
      | cons a as ih =>
        intro y z hxy hyz
        cases y with
        | nil => exact hxy.elim
        | cons b bs =>
          cases z with
          | nil => exact hyz.elim
          | cons c cs =>
            rcases hxy with h1 | ⟨e1, h1⟩
            · rcases hyz with h2 | ⟨e2, h2⟩
              · exact Or.inl (h1.trans h2)
              · exact Or.inl (e2 ▸ h1)
            · rcases hyz with h2 | ⟨e2, h2⟩
              · exact Or.inl (e1 ▸ h2)
              · exact Or.inr ⟨e1.trans e2, ih bs cs h1 h2⟩
    intro a b c hab hbc
    rcases hab with h1 | ⟨e1, y1⟩
    · rcases hbc with h2 | ⟨e2, y2⟩
      · exact Or.inl (ltr _ _ _ h1 h2)
      · exact Or.inl (by rw [← e2]; exact h1)
    · rcases hbc with h2 | ⟨e2, y2⟩
      · exact Or.inl (by rw [e1]; exact h2)
      · refine Or.inr ⟨e1.trans e2, ?_⟩
        revert y1 y2
        cases a.year <;> cases b.year <;> cases c.year <;> intro y1 y2 <;>
          first
            | trivial
            | exact y1.elim
            | exact y2.elim
            | exact le_trans y1 y2

/-- `df.sort_values(['Region', 'Year'])`: a multi-column pandas sort is the
stable lexicographic sort (`np.lexsort`), modelled by stable insertion sort. -/
def sortClean (t : List CRow) : List CRow :=
  List.insertionSort rowLe t

/-- The working table right before imputation: type coercion followed by the
Year dropna (the `Year` iteration of the `numeric_cols` loop runs before the
`Forest_Cover_ha` iteration). -/
def table0 (raw : List RawRow) : List CRow :=
  dropnaYear (coerceRows 0 raw)

/-- The cleaned table just before the final sort: coercion, Year dropna,
two imputation tiers, blank-Region filter (clean_data.py lines 26-47),
in source order. -/
def preOut (raw : List RawRow) : List CRow :=
  filterRegionNonBlank (fillRegionMedian (fillGroupMedian (table0 raw)))

/-- The data transformation of `load_and_clean` (clean_data.py lines 26-50);
reading, writing and printing are out of scope. -/
def load_and_clean (raw : List RawRow) : List CRow :=
  sortClean (preOut raw)

/-! Section: Aggregator (`analyze_and_plot.py`) -/

/-- One row of the Clean Table as the Aggregator reads it: Year always
present, Forest_Cover_ha possibly still missing. -/
structure CleanRow where
  year : ℚ
  region : String
  cover : Option ℚ
deriving DecidableEq

/-- A float value as it can occur in the YoY column: a finite (real) value,
one of the two infinities produced by division by zero, or NaN. -/
inductive PdFloat where
  | fin : ℚ → PdFloat
  | pinf : PdFloat
  | ninf : PdFloat
  | nan : PdFloat
deriving DecidableEq

/-- One row of the Global Trend Table. -/
structure TrendRow where
  year : ℚ
  total : ℚ
  yoy : PdFloat
deriving DecidableEq

instance : Inhabited TrendRow := ⟨⟨0, 0, .nan⟩⟩

/-- The group keys of `df.groupby('Year')`: the distinct Years, ascending
(pandas sorts group keys by default). -/
def trendYears (cl : List CleanRow) : List ℚ :=
  (List.insertionSort (· ≤ ·) (cl.map (fun r => r.year))).dedup

/-- `df.groupby('Year')['Forest_Cover_ha'].sum()` for one year: missing
values are skipped, i.e. contribute 0 (analyze_and_plot.py line 24). -/
def totalFor (cl : List CleanRow) (y : ℚ) : ℚ :=
  sumQ ((cl.filter (fun r => decide (r.year = y))).map (fun r => r.cover.getD 0))

/-- One entry of `Total_Cover_ha.pct_change() * 100` in float semantics:
previous total 0 gives ±infinity (or NaN for 0/0), otherwise the exact
percentage change `(cur - prev) / prev * 100`. -/
def pctChange100 (prev cur : ℚ) : PdFloat :=
  if prev = 0 then
    if 0 < cur then .pinf else if cur < 0 then .ninf else .nan
  else .fin (qmul (qdiv (qsub cur prev) prev) 100)

/-- `pct_change` entries after the first: each pairs a total with its
predecessor. -/
def yoyFrom (prev : ℚ) : List ℚ → List PdFloat
  | [] => []
  | cur :: ts => pctChange100 prev cur :: yoyFrom cur ts

/-- `Total_Cover_ha.pct_change() * 100` (analyze_and_plot.py line 28):
the first entry has no predecessor and is NaN. -/
def yoyRaw : List ℚ → List PdFloat
  | [] => []
  | t :: ts => .nan :: yoyFrom t ts

/-- `.fillna(0)` on the YoY column (analyze_and_plot.py line 30): NaN
becomes 0; infinities are not NaN and stay. -/
def fillnaZero : PdFloat → PdFloat
  | .nan => .fin 0
  | v => v

/-- Assembling the columns Year, Total_Cover_ha, YoY_Change_pct into rows. -/
def zipRows : List ℚ → List ℚ → List PdFloat → List TrendRow
  | y :: ys, t :: ts, v :: vs => ⟨y, t, v⟩ :: zipRows ys ts vs
  | _, _, _ => []

/-- `compute_global_trend` (analyze_and_plot.py lines 18-34): group by Year,
sum per group, percentage change, first-row NaN filled with 0. -/
def compute_global_trend (cl : List CleanRow) : List TrendRow :=
  let ys := trendYears cl
  let ts := ys.map (totalFor cl)
  let yo := (yoyRaw ts).map fillnaZero
  zipRows ys ts yo

/-- The data handed to the charting library by `plot_global_trend`
(analyze_and_plot.py lines 36-64): the two panels' series and the bar
colors; the library itself is an external collaborator. -/
structure TrendChart where
  lineX : List ℚ
  lineY : List ℚ
  barX : List ℚ
  barHeights : List PdFloat
  barColors : List String
deriving DecidableEq

/-- `val < 0` on a float YoY value (NaN compares false). -/
def isNegFloat : PdFloat → Bool
  | .fin q => decide (q < 0)
  | .ninf => true
  | .pinf => false
  | .nan => false

/-- `plot_global_trend` as the chart data it produces (line 45: line series;
line 52: bar colors by sign; line 53: bar series). -/
def plot_global_trend (g : List TrendRow) : TrendChart :=
  { lineX := g.map (fun r => r.year)
    lineY := g.map (fun r => r.total)
    barX := g.map (fun r => r.year)
    barHeights := g.map (fun r => r.yoy)
    barColors := g.map (fun r => if isNegFloat r.yoy then "red" else "green") }

/-! Section: Loading (`load_cleaned_data`) -/

/-- A delimited file as parsed by the CSV reader: a header and data rows.
No particular columns are required for parsing to succeed. -/
structure CsvFile where
  header : List String
  rows : List (List String)
deriving DecidableEq

/-- Errors the external reader can raise. -/
inductive PdError where
  | fileNotFound : PdError
  | formatError : PdError
deriving DecidableEq

/-- `pd.read_csv` as an external collaborator, applied to the file found at
the path (`none` when the file is absent): raises `FileNotFoundError` for an
absent file and otherwise returns the parsed file as is. -/
def read_csv : Option CsvFile → Except PdError CsvFile
  | none => .error .fileNotFound
  | some f => .ok f

/-- `load_cleaned_data` (analyze_and_plot.py lines 12-16): reads the file and
returns it; no column validation is performed. -/
def load_cleaned_data (fs : Option CsvFile) : Except PdError CsvFile :=
  read_csv fs

/-! Section: Concrete tables used by the scenarios -/

/-- Scenario 1 raw input: `[{2000,A,100},{2000,A,},{2001,A,150}]`. -/
def rawScenario1 : List RawRow :=
  [⟨.num 2000, some "A", .num 100⟩, ⟨.num 2000, some "A", .missing⟩,
   ⟨.num 2001, some "A", .num 150⟩]

/-- Scenario 2 as literally written, fields in schema order
(Year, Region, Forest_Cover_ha): Region "B" in both rows, first cover cell
the blank text " ". -/
def rawScenario2Literal : List RawRow :=
  [⟨.num 2000, some "B", .text " "⟩, ⟨.num 2000, some "B", .num 50⟩]

/-- Scenario 2 as intended by its rule ("row with blank Region dropped"):
the first row's Region is the blank string " ". -/
def rawScenario2 : List RawRow :=
  [⟨.num 2000, some " ", .missing⟩, ⟨.num 2000, some "B", .num 50⟩]

/-- Scenario 3 Clean Table: `[{2000,X,100},{2000,Y,200},{2001,X,110},{2001,Y,220}]`. -/
def cleanScenario3 : List CleanRow :=
  [⟨2000, "X", some 100⟩, ⟨2000, "Y", some 200⟩,
   ⟨2001, "X", some 110⟩, ⟨2001, "Y", some 220⟩]

/-- Region A table on which tier-2 imputation reads the tier-1-filled column:
the (A,2000) group gets 15 imputed for its missing row, which shifts the
region median seen by the later (A,2001) row. -/
def rawC2 : List RawRow :=
  [⟨.num 2000, some "A", .num 10⟩, ⟨.num 2000, some "A", .num 20⟩,
   ⟨.num 2000, some "A", .missing⟩, ⟨.num 2002, some "A", .num 5⟩,
   ⟨.num 2001, some "A", .missing⟩]

/-- A raw row whose Region cell is missing and whose Year does not parse. -/
def rawC9Dropped : List RawRow :=
  [⟨.text "n/a", none, .num 5⟩]

/-- A raw row whose Region cell is missing but whose Year parses. -/
def rawC9Kept : List RawRow :=
  [⟨.num 2000, none, .num 5⟩]

/-- A Clean Table whose first year's total is 0 and whose second year's
total is positive. -/
def cleanC10 : List CleanRow :=
  [⟨2000, "A", some 0⟩, ⟨2001, "A", some 5⟩]

/-- A present CSV file that lacks all the required columns. -/
def csvMissingCols : CsvFile :=
  ⟨["Wrong"], [["1"]]⟩

end Forest

namespace Forest

/-! The computable arithmetic agrees with the field operations on `ℚ`. -/

theorem qadd_eq (a b : ℚ) : qadd a b = a + b := by
  have ha : ((a.den : ℚ)) ≠ 0 := by exact_mod_cast a.den_ne_zero
  have hb : ((b.den : ℚ)) ≠ 0 := by exact_mod_cast b.den_ne_zero
  rw [qadd, Rat.divInt_eq_div]
  push_cast
  conv_rhs => rw [← Rat.num_div_den a, ← Rat.num_div_den b]
  rw [div_add_div _ _ ha hb]
  ring_nf

theorem qsub_eq (a b : ℚ) : qsub a b = a - b := by
  have ha : ((a.den : ℚ)) ≠ 0 := by exact_mod_cast a.den_ne_zero
  have hb : ((b.den : ℚ)) ≠ 0 := by exact_mod_cast b.den_ne_zero
  rw [qsub, Rat.divInt_eq_div]
  push_cast
  conv_rhs => rw [← Rat.num_div_den a, ← Rat.num_div_den b]
  rw [div_sub_div _ _ ha hb]
  ring_nf

theorem qmul_eq (a b : ℚ) : qmul a b = a * b := by
  have ha : ((a.den : ℚ)) ≠ 0 := by exact_mod_cast a.den_ne_zero
  have hb : ((b.den : ℚ)) ≠ 0 := by exact_mod_cast b.den_ne_zero
  rw [qmul, Rat.divInt_eq_div]
  push_cast
  conv_rhs => rw [← Rat.num_div_den a, ← Rat.num_div_den b]
  rw [div_mul_div_comm]

theorem qdiv_eq (a b : ℚ) : qdiv a b = a / b := by
  rcases eq_or_ne b 0 with rfl | hb
  · rw [qdiv, Rat.divInt_eq_div]
    simp
  · have ha : ((a.den : ℚ)) ≠ 0 := by exact_mod_cast a.den_ne_zero
    have hbd : ((b.den : ℚ)) ≠ 0 := by exact_mod_cast b.den_ne_zero
    have hbn : ((b.num : ℚ)) ≠ 0 := by exact_mod_cast Rat.num_ne_zero.mpr hb
    rw [qdiv, Rat.divInt_eq_div]
    push_cast
    conv_rhs => rw [← Rat.num_div_den a, ← Rat.num_div_den b]
    field_simp

theorem sumQ_eq (l : List ℚ) : sumQ l = l.sum := by
  induction l with
  | nil => rfl
  | cons a l ih => rw [sumQ, qadd_eq, ih, List.sum_cons]

/-! Section: Small facts about the orders and the median -/

theorem yearLe_refl (o : Option ℚ) : yearLe o o := by
  cases o with
  | none => trivial
  | some x => exact le_refl x

theorem median_nil : median ([] : List ℚ) = none := rfl

theorem median_isSome {l : List ℚ} (h : l ≠ []) : (median l).isSome := by
  rw [median]
  cases hs : List.insertionSort (· ≤ ·) l with
  | nil =>
    have hp := List.perm_insertionSort (· ≤ ·) l
    rw [hs] at hp
    have hlen := hp.length_eq
    simp only [List.length_nil] at hlen
    exact absurd (List.length_eq_zero.mp hlen.symm) h
  | cons a t =>
    dsimp only
    split <;> rfl

/-! Section: A stable sort does not reorder rows with equal keys -/

theorem filter_orderedInsert_neg {α : Type} (le : α → α → Prop) [DecidableRel le]
    (k : α → Bool) (x : α) (hx : k x = false) :
    ∀ l : List α, ((List.orderedInsert le x l).filter k) = l.filter k := by
  intro l
  induction l with
  | nil => simp [List.orderedInsert, hx]
  | cons y ys ih =>
    by_cases h : le x y
    · rw [List.orderedInsert, if_pos h]
      simp [List.filter_cons, hx]
    · rw [List.orderedInsert, if_neg h]
      simp only [List.filter_cons, ih]

theorem filter_orderedInsert_pos {α : Type} (le : α → α → Prop) [DecidableRel le]
    (k : α → Bool) (x : α) (hx : k x = true) (hbelow : ∀ y, ¬ le x y → k y = false) :
    ∀ l : List α, ((List.orderedInsert le x l).filter k) = x :: l.filter k := by
  intro l
  induction l with
  | nil => simp [List.orderedInsert, hx]
  | cons y ys ih =>
    by_cases h : le x y
    · rw [List.orderedInsert, if_pos h]
      simp [List.filter_cons, hx]
    · rw [List.orderedInsert, if_neg h]
      simp only [List.filter_cons, hbelow y h, ih]
      simp

theorem filter_insertionSort {α : Type} (le : α → α → Prop) [DecidableRel le]
    (k : α → Bool) (hk : ∀ x y, k x = true → ¬ le x y → k y = false) :
    ∀ l : List α, ((List.insertionSort le l).filter k) = l.filter k := by
  intro l
  induction l with
  | nil => rfl
  | cons a l ih =>
    show ((List.orderedInsert le a (List.insertionSort le l)).filter k) = _
    cases hka : k a with
    | true =>
      rw [filter_orderedInsert_pos le k a hka (fun y hy => hk a y hka hy), ih]
      simp [List.filter_cons, hka]
    | false =>
      rw [filter_orderedInsert_neg le k a hka, ih]
      simp [List.filter_cons, hka]

/-! Section: Row indices through the cleaning pipeline -/

theorem coerceRows_getElem? (raw : List RawRow) (i p : ℕ) :
    (coerceRows i raw)[p]? =
      raw[p]?.map (fun r => ⟨i + p, toNumeric r.year, regionStr r.region, toNumeric r.cover⟩) := by
  induction raw generalizing i p with
  | nil => simp [coerceRows]
  | cons r rs ih =>
    cases p with
    | zero => simp [coerceRows]
    | succ p =>
      rw [coerceRows, List.getElem?_cons_succ, List.getElem?_cons_succ, ih]
      have : i + 1 + p = i + (p + 1) := by omega
      rw [this]

theorem coerceRows_zero_getElem? (raw : List RawRow) (p : ℕ) :
    (coerceRows 0 raw)[p]? =
      raw[p]?.map (fun r => ⟨p, toNumeric r.year, regionStr r.region, toNumeric r.cover⟩) := by
  rw [coerceRows_getElem?]
  simp

theorem coerceRows_le_idx (raw : List RawRow) (i : ℕ) :
    ∀ r ∈ coerceRows i raw, i ≤ r.idx := by
  induction raw generalizing i with
  | nil => intro r hr; simp [coerceRows] at hr
  | cons x xs ih =>
    intro r hr
    rw [coerceRows] at hr
    rcases List.mem_cons.mp hr with rfl | hr
    · exact le_refl i
    · exact le_trans (Nat.le_succ i) (ih (i + 1) r hr)

theorem coerceRows_pairwise_idx (raw : List RawRow) (i : ℕ) :
    (coerceRows i raw).Pairwise (fun a b => a.idx < b.idx) := by
  induction raw generalizing i with
  | nil => exact List.Pairwise.nil
  | cons x xs ih =>
    rw [coerceRows]
    refine List.Pairwise.cons ?_ (ih (i + 1))
    intro b hb
    exact lt_of_lt_of_le (Nat.lt_succ_self i) (coerceRows_le_idx xs (i + 1) b hb)

theorem table0_pairwise_idx (raw : List RawRow) :
    (table0 raw).Pairwise (fun a b => a.idx < b.idx) :=
  List.Pairwise.sublist (List.filter_sublist _) (coerceRows_pairwise_idx raw 0)

theorem t2_pairwise_idx (raw : List RawRow) :
    (fillRegionMedian (fillGroupMedian (table0 raw))).Pairwise (fun a b => a.idx < b.idx) := by
  rw [fillRegionMedian, fillGroupMedian, List.pairwise_map, List.pairwise_map]
  exact table0_pairwise_idx raw

theorem preOut_pairwise_idx (raw : List RawRow) :
    (preOut raw).Pairwise (fun a b => a.idx < b.idx) :=
  List.Pairwise.sublist (List.filter_sublist _) (t2_pairwise_idx raw)

theorem uniqueIdx : ∀ (l : List CRow), l.Pairwise (fun a b => a.idx < b.idx) →
    ∀ a ∈ l, ∀ b ∈ l, a.idx = b.idx → a = b := by
  intro l
  induction l with
  | nil => intro _ a ha; exact absurd ha (List.not_mem_nil a)
  | cons x xs ih =>
    intro hl a ha b hb hab
    rw [List.pairwise_cons] at hl
    rcases List.mem_cons.mp ha with rfl | ha' <;> rcases List.mem_cons.mp hb with rfl | hb'
    · rfl
    · have := hl.1 b hb'; omega
    · have := hl.1 a ha'; omega
    · exact ih hl.2 a ha' b hb' hab

theorem mem_t2_of_mem_clean {raw : List RawRow} {r : CRow} (hr : r ∈ load_and_clean raw) :
    r ∈ fillRegionMedian (fillGroupMedian (table0 raw)) := by
  rw [load_and_clean, sortClean] at hr
  exact List.mem_of_mem_filter ((List.mem_insertionSort rowLe).mp hr)

/-! Section: Claim C1: tier-1 imputation by (Region, Year) group median -/

/-- C1 — Tier-1 imputation: for every raw table and every row whose
Forest_Cover_ha is missing after coercion (and whose Year coerces, so the
row belongs to a `(Region, Year)` group), if the row's `(Region, Year)`
group has at least one non-missing Forest_Cover_ha (necessarily from
another row), then in the Cleaner's output the row with that index has
Forest_Cover_ha equal to the median of the non-missing Forest_Cover_ha
values of the group. -/
theorem C1_group_median_imputation (raw : List RawRow) (p : ℕ) (rr : RawRow) (yq : ℚ)
    (hget : raw[p]? = some rr)
    (hy : toNumeric rr.year = some yq)
    (hc : toNumeric rr.cover = none)
    (hgrp : groupVals (table0 raw) (regionStr rr.region) yq ≠ []) :
    ∀ r ∈ load_and_clean raw, r.idx = p →
      r.cover = median (groupVals (table0 raw) (regionStr rr.region) yq) := by
  intro r hr hidx
  obtain ⟨m, hm⟩ := Option.isSome_iff_exists.mp (median_isSome hgrp)
  have hmemc : (⟨p, some yq, regionStr rr.region, none⟩ : CRow) ∈ coerceRows 0 raw := by
    apply List.getElem?_mem
    rw [coerceRows_zero_getElem?, hget]
    simp [hy, hc]
  have hmem0 : (⟨p, some yq, regionStr rr.region, none⟩ : CRow) ∈ table0 raw := by
    rw [table0, dropnaYear]
    exact List.mem_filter.mpr ⟨hmemc, rfl⟩
  have hmem1 : (⟨p, some yq, regionStr rr.region, some m⟩ : CRow)
      ∈ fillGroupMedian (table0 raw) := by
    have h1 := List.mem_map_of_mem
      (fun x => { x with cover := fillna x.cover (groupMedian (table0 raw) x) }) hmem0
    have h2 : ({ (⟨p, some yq, regionStr rr.region, none⟩ : CRow) with
          cover := fillna none (groupMedian (table0 raw) ⟨p, some yq, regionStr rr.region, none⟩) } : CRow)
        = ⟨p, some yq, regionStr rr.region, some m⟩ := by
      show (⟨p, some yq, regionStr rr.region,
        median (groupVals (table0 raw) (regionStr rr.region) yq)⟩ : CRow) = _
      rw [hm]
    rw [fillGroupMedian]
    exact h2 ▸ h1
  have hmem2 : (⟨p, some yq, regionStr rr.region, some m⟩ : CRow)
      ∈ fillRegionMedian (fillGroupMedian (table0 raw)) := by
    have h1 := List.mem_map_of_mem
      (fun x => { x with
        cover := fillna x.cover (median (regionVals (fillGroupMedian (table0 raw)) x.region)) }) hmem1
    exact h1
  have heq := uniqueIdx _ (t2_pairwise_idx raw) r (mem_t2_of_mem_clean hr) _ hmem2 hidx
  rw [heq, hm]

/-- Witness for C1 at Scenario 1: the second raw row (index 1) of
`[{2000,A,100},{2000,A,},{2001,A,150}]` comes out with Forest_Cover_ha
100, the median of {100}. -/
theorem C1_group_median_imputation_witness :
    rawScenario1[1]? = some ⟨.num 2000, some "A", .missing⟩ ∧
    groupVals (table0 rawScenario1) "A" 2000 ≠ [] ∧
    median (groupVals (table0 rawScenario1) "A" 2000) = some 100 ∧
    ∀ r ∈ load_and_clean rawScenario1, r.idx = 1 → r.cover = some 100 := by
  refine ⟨by decide, by decide, by decide, fun r hr hidx => ?_⟩
  have h := C1_group_median_imputation rawScenario1 1 ⟨.num 2000, some "A", .missing⟩ 2000
    (by decide) (by decide) (by decide) (by decide) r hr hidx
  rw [h]
  decide

/-! Section: Claim C2: tier-2 imputation by Region median -/

/-- C2 (amended) — Tier-2 imputation: a row still missing after the
tier-1 fill (its `(Region, Year)` group has no non-missing value), in a
Region that has at least one other row with a non-missing raw
Forest_Cover_ha, receives the median of the Region's Forest_Cover_ha
column **as it stands after the tier-1 group fill** (tier-1-imputed values
included), not the median of the raw non-missing values. -/
theorem C2_region_median_imputation (raw : List RawRow) (p : ℕ) (rr : RawRow) (yq : ℚ)
    (hget : raw[p]? = some rr)
    (hy : toNumeric rr.year = some yq)
    (hc : toNumeric rr.cover = none)
    (hgrp : groupVals (table0 raw) (regionStr rr.region) yq = [])
    (hreg : ∃ r1 ∈ table0 raw, r1.region = regionStr rr.region ∧ r1.cover.isSome) :
    ∀ r ∈ load_and_clean raw, r.idx = p →
      r.cover = median (regionVals (fillGroupMedian (table0 raw)) (regionStr rr.region)) := by
  intro r hr hidx
  obtain ⟨r1, hr1mem, hr1reg, hr1some⟩ := hreg
  obtain ⟨v, hv⟩ := Option.isSome_iff_exists.mp hr1some
  have hvmem : v ∈ regionVals (fillGroupMedian (table0 raw)) (regionStr rr.region) := by
    rw [regionVals]
    refine List.mem_filterMap.mpr ⟨⟨r1.idx, r1.year, r1.region, some v⟩, ?_, rfl⟩
    refine List.mem_filter.mpr ⟨?_, by simp [hr1reg]⟩
    rw [fillGroupMedian]
    have h1 := List.mem_map_of_mem
      (fun x => { x with cover := fillna x.cover (groupMedian (table0 raw) x) }) hr1mem
    have h2 : ({ r1 with cover := fillna r1.cover (groupMedian (table0 raw) r1) } : CRow)
        = ⟨r1.idx, r1.year, r1.region, some v⟩ := by
      rw [hv]
      rfl
    exact h2 ▸ h1
  obtain ⟨m, hm⟩ := Option.isSome_iff_exists.mp (median_isSome (List.ne_nil_of_mem hvmem))
  have hmemc : (⟨p, some yq, regionStr rr.region, none⟩ : CRow) ∈ coerceRows 0 raw := by
    apply List.getElem?_mem
    rw [coerceRows_zero_getElem?, hget]
    simp [hy, hc]
  have hmem0 : (⟨p, some yq, regionStr rr.region, none⟩ : CRow) ∈ table0 raw := by
    rw [table0, dropnaYear]
    exact List.mem_filter.mpr ⟨hmemc, rfl⟩
  have hmem1 : (⟨p, some yq, regionStr rr.region, none⟩ : CRow)
      ∈ fillGroupMedian (table0 raw) := by
    have h1 := List.mem_map_of_mem
      (fun x => { x with cover := fillna x.cover (groupMedian (table0 raw) x) }) hmem0
    have h2 : ({ (⟨p, some yq, regionStr rr.region, none⟩ : CRow) with
          cover := fillna none (groupMedian (table0 raw) ⟨p, some yq, regionStr rr.region, none⟩) } : CRow)
        = ⟨p, some yq, regionStr rr.region, none⟩ := by
      show (⟨p, some yq, regionStr rr.region,
        median (groupVals (table0 raw) (regionStr rr.region) yq)⟩ : CRow) = _
      rw [hgrp, median_nil]
    rw [fillGroupMedian]
    exact h2 ▸ h1
  have hmem2 : (⟨p, some yq, regionStr rr.region, some m⟩ : CRow)
      ∈ fillRegionMedian (fillGroupMedian (table0 raw)) := by
    have h1 := List.mem_map_of_mem
      (fun x => { x with
        cover := fillna x.cover (median (regionVals (fillGroupMedian (table0 raw)) x.region)) }) hmem1
    have h2 : ({ (⟨p, some yq, regionStr rr.region, none⟩ : CRow) with
          cover := fillna none (median (regionVals (fillGroupMedian (table0 raw)) (regionStr rr.region))) } : CRow)
        = ⟨p, some yq, regionStr rr.region, some m⟩ := by
      show (⟨p, some yq, regionStr rr.region,
        median (regionVals (fillGroupMedian (table0 raw)) (regionStr rr.region))⟩ : CRow) = _
      rw [hm]
    rw [fillRegionMedian]
    exact h2 ▸ h1
  have heq := uniqueIdx _ (t2_pairwise_idx raw) r (mem_t2_of_mem_clean hr) _ hmem2 hidx
  rw [heq, hm]

/-- Witness for the amended C2 at `rawC2`: the (A, 2001) row (index 4) has
no peer at the (Region, Year) level, Region A has non-missing raw values,
and the row comes out with 25/2 — the median of the tier-1-filled Region A
column [10, 20, 15, 5]. -/
theorem C2_region_median_imputation_witness :
    groupVals (table0 rawC2) "A" 2001 = [] ∧
    (∃ r1 ∈ table0 rawC2, r1.region = "A" ∧ r1.cover.isSome) ∧
    median (regionVals (fillGroupMedian (table0 rawC2)) "A") = some (Rat.divInt 25 2) ∧
    Rat.divInt 25 2 = 25 / 2 ∧
    ∀ r ∈ load_and_clean rawC2, r.idx = 4 → r.cover = some (Rat.divInt 25 2) := by
  refine ⟨by decide, by decide, by decide, by rw [Rat.divInt_eq_div]; norm_num,
    fun r hr hidx => ?_⟩
  have h := C2_region_median_imputation rawC2 4 ⟨.num 2001, some "A", .missing⟩ 2001
    (by decide) (by decide) (by decide) (by decide) (by decide) r hr hidx
  rw [h]
  decide

/-- Counterexample to C2 as stated: at `rawC2`, the still-missing (A, 2001)
row is imputed 25/2, while the median of the raw non-missing
Forest_Cover_ha values of Region A ({10, 20, 5}) is 10 — the output does
not equal the Region median of the raw values. -/
theorem C2_counterexample :
    (∃ r ∈ load_and_clean rawC2, r.idx = 4 ∧ r.cover = some (Rat.divInt 25 2)) ∧
    median (regionVals (table0 rawC2) "A") = some 10 ∧
    Rat.divInt 25 2 ≠ 10 ∧
    ¬ (∀ r ∈ load_and_clean rawC2, r.idx = 4 →
        r.cover = median (regionVals (table0 rawC2) "A")) := by decide

/-! Section: Claim C5: Clean Table row validity -/

/-- C5 (amended) — Clean Table row validity: every row of the Cleaner's
output has a coerced numeric Year (rows with unparseable Year are dropped)
and a Region that is non-empty after stripping whitespace (blank-Region
rows are dropped); with the blank placed in the Region field, raw input
`[{2000," ",missing},{2000,B,50}]` yields only the second row, unchanged.
(As literally written the scenario's blank sits in the Forest_Cover_ha
field — see `C5_counterexample`.) -/
theorem C5_row_validity (raw : List RawRow) :
    (∀ r ∈ load_and_clean raw, r.year.isSome ∧ pyStrip r.region ≠ "") ∧
    load_and_clean rawScenario2 = [⟨1, some 2000, "B", some 50⟩] := by
  refine ⟨fun r hr => ⟨?_, ?_⟩, by decide⟩
  · have h2 := mem_t2_of_mem_clean hr
    rw [fillRegionMedian] at h2
    obtain ⟨a, ha, rfl⟩ := List.mem_map.mp h2
    rw [fillGroupMedian] at ha
    obtain ⟨b, hb, rfl⟩ := List.mem_map.mp ha
    rw [table0, dropnaYear] at hb
    exact (List.mem_filter.mp hb).2
  · rw [load_and_clean, sortClean] at hr
    have h1 := (List.mem_insertionSort rowLe).mp hr
    rw [preOut, filterRegionNonBlank] at h1
    have h2 := (List.mem_filter.mp h1).2
    simpa using h2

/-- Witness for C5: the surviving row of the corrected Scenario 2 is in the
output and satisfies the validity invariant. -/
theorem C5_row_validity_witness :
    (⟨1, some 2000, "B", some 50⟩ : CRow) ∈ load_and_clean rawScenario2 ∧
    ((⟨1, some 2000, "B", some 50⟩ : CRow).year.isSome ∧
      pyStrip (⟨1, some 2000, "B", some 50⟩ : CRow).region ≠ "") :=
  ⟨by decide, (C5_row_validity rawScenario2).1 _ (by decide)⟩

/-- Counterexample to C5's concrete scenario as literally written: in
`[{2000,B," "},{2000,B,50}]` (fields in schema order Year, Region,
Forest_Cover_ha) no Region is blank; the blank cover cell is coerced to
NaN and imputed to 50, and BOTH rows are retained — the output is not just
the second row. -/
theorem C5_counterexample :
    load_and_clean rawScenario2Literal =
      [⟨0, some 2000, "B", some 50⟩, ⟨1, some 2000, "B", some 50⟩] ∧
    (load_and_clean rawScenario2Literal).length ≠ 1 := by decide

/-! Section: Claim C9: a missing Region survives cleaning as the string "nan" -/

/-- C9 (amended): a raw row whose Region cell is missing gets the
literal string "nan" from the unconditional string coercion; "nan" strips
to a non-empty string, so the row is not removed by the blank-Region
filter and — provided its Year coerces — appears in the Clean Table with
Region "nan".  (A missing-Region row whose Year does not coerce is
dropped by the Year dropna instead: see `C9_counterexample`.) -/
theorem C9_missing_region_nan (raw : List RawRow) (p : ℕ) (rr : RawRow)
    (hget : raw[p]? = some rr)
    (hreg : rr.region = none)
    (hy : (toNumeric rr.year).isSome) :
    regionStr rr.region = "nan" ∧ pyStrip "nan" ≠ "" ∧
    ∃ r ∈ load_and_clean raw, r.idx = p ∧ r.region = "nan" := by
  obtain ⟨yq, hyq⟩ := Option.isSome_iff_exists.mp hy
  refine ⟨by rw [hreg]; rfl, by decide, ?_⟩
  have hmemc : (⟨p, some yq, regionStr rr.region, toNumeric rr.cover⟩ : CRow)
      ∈ coerceRows 0 raw := by
    apply List.getElem?_mem
    rw [coerceRows_zero_getElem?, hget]
    simp [hyq]
  have hmem0 : (⟨p, some yq, regionStr rr.region, toNumeric rr.cover⟩ : CRow) ∈ table0 raw := by
    rw [table0, dropnaYear]
    exact List.mem_filter.mpr ⟨hmemc, rfl⟩
  have hmem1 := List.mem_map_of_mem
    (fun x => { x with cover := fillna x.cover (groupMedian (table0 raw) x) }) hmem0
  rw [← fillGroupMedian] at hmem1
  have hmem2 := List.mem_map_of_mem
    (fun x => { x with
      cover := fillna x.cover (median (regionVals (fillGroupMedian (table0 raw)) x.region)) }) hmem1
  rw [← fillRegionMedian] at hmem2
  refine ⟨⟨p, some yq, regionStr rr.region, ?_⟩, ?_, rfl, by rw [hreg]; rfl⟩
  rotate_left
  refine (List.mem_insertionSort rowLe).mpr ?_
  refine List.mem_filter.mpr ⟨?_, ?_⟩
  · exact hmem2
  · show (!(pyStrip (regionStr rr.region) == "")) = true
    rw [hreg]
    decide

/-- Witness for C9: the single row of `[{2000, <missing Region>, 5}]`
appears in the Clean Table with Region "nan". -/
theorem C9_missing_region_nan_witness :
    regionStr none = "nan" ∧ pyStrip "nan" ≠ "" ∧
    ∃ r ∈ load_and_clean rawC9Kept, r.idx = 0 ∧ r.region = "nan" :=
  C9_missing_region_nan rawC9Kept 0 ⟨.num 2000, none, .num 5⟩ (by decide) rfl (by decide)

/-- Counterexample to C9 as stated: the raw row `{n/a, <missing Region>, 5}`
has a missing Region cell, yet it does not appear in the Clean Table at
all — its Year fails numeric coercion, so the Year dropna removes it. -/
theorem C9_counterexample :
    rawC9Dropped[0]? = some ⟨.text "n/a", none, .num 5⟩ ∧
    (rawC9Dropped[0]?.map (fun r => r.region)) = some none ∧
    load_and_clean rawC9Dropped = [] := by decide

/-! Section: Claim C6: sort order with stable tie-break -/

/-- C6 — Sort order with stable tie-break: the Cleaner's output is
sorted by (Region ascending, then Year ascending), and for every
(Region, Year) key the rows with that key appear exactly as in the
pre-sort table — i.e. in their original input order (indices increasing). -/
theorem C6_sorted_stable (raw : List RawRow) :
    (load_and_clean raw).Pairwise rowLe ∧
    ∀ (rg : String) (oy : Option ℚ),
      ((load_and_clean raw).filter (fun r => decide (r.region = rg) && decide (r.year = oy))
        = (preOut raw).filter (fun r => decide (r.region = rg) && decide (r.year = oy))) ∧
      ((load_and_clean raw).filter
          (fun r => decide (r.region = rg) && decide (r.year = oy))).Pairwise
        (fun a b => a.idx < b.idx) := by
  have hsorted : (load_and_clean raw).Pairwise rowLe := by
    rw [load_and_clean, sortClean]
    exact List.sorted_insertionSort rowLe (preOut raw)
  refine ⟨hsorted, fun rg oy => ?_⟩
  have hstable :
      ((load_and_clean raw).filter (fun r => decide (r.region = rg) && decide (r.year = oy))
        = (preOut raw).filter (fun r => decide (r.region = rg) && decide (r.year = oy))) := by
    rw [load_and_clean, sortClean]
    apply filter_insertionSort
    intro x y hx hnot
    simp only [Bool.and_eq_true, decide_eq_true_eq] at hx
    by_contra hyk
    rw [Bool.not_eq_false] at hyk
    simp only [Bool.and_eq_true, decide_eq_true_eq] at hyk
    refine hnot (Or.inr ⟨hx.1.trans hyk.1.symm, ?_⟩)
    rw [hx.2, hyk.2]
    exact yearLe_refl oy
  refine ⟨hstable, ?_⟩
  rw [hstable]
  exact List.Pairwise.sublist (List.filter_sublist _) (preOut_pairwise_idx raw)

/-- Witness for C6 at Scenario 1, which has two rows tied on
(Region, Year) = (A, 2000): the output is sorted and the tied rows keep
their input order (indices 0 then 1). -/
theorem C6_sorted_stable_witness :
    (load_and_clean rawScenario1).Pairwise rowLe ∧
    ((load_and_clean rawScenario1).filter
        (fun r => decide (r.region = "A") && decide (r.year = some 2000))
      = (preOut rawScenario1).filter
        (fun r => decide (r.region = "A") && decide (r.year = some 2000))) ∧
    ((load_and_clean rawScenario1).filter
        (fun r => decide (r.region = "A") && decide (r.year = some 2000)))
      = [⟨0, some 2000, "A", some 100⟩, ⟨1, some 2000, "A", some 100⟩] :=
  ⟨(C6_sorted_stable rawScenario1).1,
    ((C6_sorted_stable rawScenario1).2 "A" (some 2000)).1, by decide⟩

/-! Section: Indexing the Global Trend Table -/

theorem yoyFrom_getElem? : ∀ (ts : List ℚ) (prev : ℚ) (i : ℕ),
    (yoyFrom prev ts)[i]? =
      ((prev :: ts)[i]?.bind fun pv => ts[i]?.map fun cur => pctChange100 pv cur) := by
  intro ts
  induction ts with
  | nil =>
    intro prev i
    cases i with
    | zero => simp [yoyFrom]
    | succ i => simp [yoyFrom]
  | cons cur ts ih =>
    intro prev i
    cases i with
    | zero => simp [yoyFrom]
    | succ i =>
      simp only [yoyFrom, List.getElem?_cons_succ]
      exact ih cur i

theorem yoyRaw_length : ∀ ts : List ℚ, (yoyRaw ts).length = ts.length := by
  have hfrom : ∀ (ts : List ℚ) (prev : ℚ), (yoyFrom prev ts).length = ts.length := by
    intro ts
    induction ts with
    | nil => intro prev; rfl
    | cons cur ts ih =>
      intro prev
      simp only [yoyFrom, List.length_cons, ih cur]
  intro ts
  cases ts with
  | nil => rfl
  | cons t ts => simp only [yoyRaw, List.length_cons, hfrom ts t]

theorem yoyRaw_getElem?_zero (ts : List ℚ) :
    (yoyRaw ts)[0]? = ts[0]?.map (fun _ => PdFloat.nan) := by
  cases ts with
  | nil => simp [yoyRaw]
  | cons t ts => simp [yoyRaw]

theorem yoyRaw_getElem?_succ (ts : List ℚ) (i : ℕ) :
    (yoyRaw ts)[i + 1]? =
      (ts[i]?.bind fun prev => ts[i + 1]?.map fun cur => pctChange100 prev cur) := by
  cases ts with
  | nil => simp [yoyRaw]
  | cons t ts =>
    simp only [yoyRaw, List.getElem?_cons_succ]
    exact yoyFrom_getElem? ts t i

theorem zipRows_getElem? : ∀ (ys ts : List ℚ) (vs : List PdFloat),
    ts.length = ys.length → vs.length = ys.length → ∀ i : ℕ,
    (zipRows ys ts vs)[i]? =
      (ys[i]?.bind fun y => ts[i]?.bind fun t => vs[i]?.map fun v => (⟨y, t, v⟩ : TrendRow)) := by
  intro ys
  induction ys with
  | nil =>
    intro ts vs hts hvs i
    obtain rfl := List.length_eq_zero.mp hts
    obtain rfl := List.length_eq_zero.mp hvs
    cases i <;> simp [zipRows]
  | cons y ys ih =>
    intro ts vs hts hvs i
    cases ts with
    | nil => simp at hts
    | cons t ts =>
      cases vs with
      | nil => simp at hvs
      | cons v vs =>
        cases i with
        | zero => simp [zipRows]
        | succ i =>
          simp only [zipRows, List.getElem?_cons_succ]
          exact ih ts vs (by simpa using hts) (by simpa using hvs) i

theorem zipRows_map_year : ∀ (ys ts : List ℚ) (vs : List PdFloat),
    ts.length = ys.length → vs.length = ys.length →
    (zipRows ys ts vs).map (fun r => r.year) = ys := by
  intro ys
  induction ys with
  | nil =>
    intro ts vs hts hvs
    obtain rfl := List.length_eq_zero.mp hts
    obtain rfl := List.length_eq_zero.mp hvs
    rfl
  | cons y ys ih =>
    intro ts vs hts hvs
    cases ts with
    | nil => simp at hts
    | cons t ts =>
      cases vs with
      | nil => simp at hvs
      | cons v vs =>
        simp only [zipRows, List.map_cons]
        rw [ih ts vs (by simpa using hts) (by simpa using hvs)]

theorem trendYears_pairwise (cl : List CleanRow) : (trendYears cl).Pairwise (· < ·) := by
  have hsorted : (List.insertionSort (· ≤ ·) (cl.map (fun r => r.year))).Pairwise (· ≤ ·) :=
    List.sorted_insertionSort _ _
  have h1 : (trendYears cl).Pairwise (· ≤ ·) :=
    List.Pairwise.sublist (List.dedup_sublist _) hsorted
  have h2 : (trendYears cl).Pairwise (· ≠ ·) := List.nodup_dedup _
  exact (h1.and h2).imp (fun h => lt_of_le_of_ne h.1 h.2)

theorem trendYears_mem (cl : List CleanRow) : ∀ y : ℚ,
    y ∈ trendYears cl ↔ y ∈ cl.map (fun r => r.year) := by
  intro y
  rw [trendYears, List.mem_dedup, List.mem_insertionSort]

theorem compute_global_trend_getElem? (cl : List CleanRow) (i : ℕ) :
    (compute_global_trend cl)[i]? =
      ((trendYears cl)[i]?.bind fun y =>
        (((trendYears cl).map (totalFor cl))[i]?.bind fun t =>
          (((yoyRaw ((trendYears cl).map (totalFor cl))).map fillnaZero)[i]?.map
            fun v => (⟨y, t, v⟩ : TrendRow)))) := by
  simp only [compute_global_trend]
  exact zipRows_getElem? _ _ _ (List.length_map _ _)
    (by rw [List.length_map, yoyRaw_length, List.length_map]) i

/-! Section: Claim C3: year-over-year change formula -/

/-- C3 — Year-over-year change: for every Clean Table, the first row of
the Global Trend Table has YoY_Change_pct exactly 0, and every subsequent
row has YoY_Change_pct equal to
`(Total[i] − Total[i−1]) / Total[i−1] × 100` whenever the previous total
(the formula's denominator) is non-zero; in particular Scenario 3 yields
`[{2000,300,0},{2001,330,10}]` exactly. -/
theorem C3_yoy_change (cl : List CleanRow) :
    (∀ r, (compute_global_trend cl)[0]? = some r → r.yoy = .fin 0) ∧
    (∀ i rp r, (compute_global_trend cl)[i]? = some rp →
      (compute_global_trend cl)[i + 1]? = some r → rp.total ≠ 0 →
      r.yoy = .fin ((r.total - rp.total) / rp.total * 100)) ∧
    compute_global_trend cleanScenario3 = [⟨2000, 300, .fin 0⟩, ⟨2001, 330, .fin 10⟩] := by
  refine ⟨?_, ?_, by decide⟩
  · intro r hr
    rw [compute_global_trend_getElem?, Option.bind_eq_some] at hr
    obtain ⟨y, hys, hr⟩ := hr
    rw [Option.bind_eq_some] at hr
    obtain ⟨t, hts, hr⟩ := hr
    rw [Option.map_eq_some'] at hr
    obtain ⟨v, hyo, hr⟩ := hr
    subst hr
    rw [List.getElem?_map, Option.map_eq_some'] at hyo
    obtain ⟨w, hw, hv⟩ := hyo
    rw [yoyRaw_getElem?_zero, hts] at hw
    simp only [Option.map_some'] at hw
    obtain rfl := Option.some.inj hw
    show v = PdFloat.fin 0
    exact hv.symm
  · intro i rp r hp hr hne
    rw [compute_global_trend_getElem?, Option.bind_eq_some] at hp hr
    obtain ⟨yp, hysp, hp⟩ := hp
    rw [Option.bind_eq_some] at hp
    obtain ⟨tp, htsp, hp⟩ := hp
    rw [Option.map_eq_some'] at hp
    obtain ⟨vp, hyop, hp⟩ := hp
    subst hp
    obtain ⟨y, hys, hr⟩ := hr
    rw [Option.bind_eq_some] at hr
    obtain ⟨t, hts, hr⟩ := hr
    rw [Option.map_eq_some'] at hr
    obtain ⟨v, hyo, hr⟩ := hr
    subst hr
    rw [List.getElem?_map, Option.map_eq_some'] at hyo
    obtain ⟨w, hw, hv⟩ := hyo
    rw [yoyRaw_getElem?_succ, htsp, hts] at hw
    simp only [Option.bind_some, Option.map_some'] at hw
    obtain rfl := Option.some.inj hw
    have hne' : tp ≠ 0 := hne
    show v = PdFloat.fin ((t - tp) / tp * 100)
    rw [← hv, pctChange100, if_neg hne']
    show PdFloat.fin (qmul (qdiv (qsub t tp) tp) 100) = _
    rw [qmul_eq, qdiv_eq, qsub_eq]

/-- Witness for C3: applying the theorem to Scenario 3 at rows 0 and 1.
The previous total 300 is non-zero and the second row's YoY value is the
exact percentage-change formula. -/
theorem C3_yoy_change_witness :
    ∃ rp r : TrendRow, (compute_global_trend cleanScenario3)[0]? = some rp ∧
      (compute_global_trend cleanScenario3)[1]? = some r ∧
      rp.total ≠ 0 ∧ rp.yoy = .fin 0 ∧
      r.yoy = .fin ((r.total - rp.total) / rp.total * 100) := by
  refine ⟨⟨2000, 300, .fin 0⟩, ⟨2001, 330, .fin 10⟩, by decide, by decide, by decide, ?_, ?_⟩
  · exact (C3_yoy_change cleanScenario3).1 _ (by decide)
  · exact (C3_yoy_change cleanScenario3).2.1 0 _ _ (by decide) (by decide) (by decide)

/-! Section: Claim C4: aggregation shape and totals -/

/-- C4 — Aggregation shape and totals: the Global Trend Table has the
distinct Years of the Clean Table as its Year column, each exactly once in
strictly ascending order, and each row's Total_Cover_ha is the sum of
Forest_Cover_ha over the Clean Table rows of that Year, missing values
contributing 0. -/
theorem C4_aggregation_shape (cl : List CleanRow) :
    ((compute_global_trend cl).map (fun r => r.year) = trendYears cl) ∧
    (trendYears cl).Pairwise (· < ·) ∧
    (∀ y : ℚ, y ∈ trendYears cl ↔ y ∈ cl.map (fun r => r.year)) ∧
    (∀ r ∈ compute_global_trend cl,
      r.total =
        ((cl.filter (fun x => decide (x.year = r.year))).map (fun x => x.cover.getD 0)).sum) := by
  refine ⟨?_, trendYears_pairwise cl, trendYears_mem cl, ?_⟩
  · simp only [compute_global_trend]
    exact zipRows_map_year _ _ _ (List.length_map _ _)
      (by rw [List.length_map, yoyRaw_length, List.length_map])
  · intro r hr
    obtain ⟨i, hi⟩ := List.mem_iff_getElem?.mp hr
    rw [compute_global_trend_getElem?, Option.bind_eq_some] at hi
    obtain ⟨y, hys, hi⟩ := hi
    rw [Option.bind_eq_some] at hi
    obtain ⟨t, hts, hi⟩ := hi
    rw [Option.map_eq_some'] at hi
    obtain ⟨v, hyo, hi⟩ := hi
    subst hi
    rw [List.getElem?_map, hys] at hts
    simp only [Option.map_some'] at hts
    obtain rfl := Option.some.inj hts
    show totalFor cl y =
      ((cl.filter (fun x => decide (x.year = y))).map (fun x => x.cover.getD 0)).sum
    rw [totalFor, sumQ_eq]

/-- Witness for C4 at Scenario 3: year column [2000, 2001], and the 2000
row's total is the sum 100 + 200 = 300 over the 2000 rows. -/
theorem C4_aggregation_shape_witness :
    ((compute_global_trend cleanScenario3).map (fun r => r.year) = trendYears cleanScenario3) ∧
    ((2000 : ℚ) ∈ trendYears cleanScenario3 ↔
      (2000 : ℚ) ∈ cleanScenario3.map (fun r => r.year)) ∧
    (⟨2000, 300, .fin 0⟩ : TrendRow) ∈ compute_global_trend cleanScenario3 ∧
    (⟨2000, 300, .fin 0⟩ : TrendRow).total =
      ((cleanScenario3.filter
          (fun x => decide (x.year = (⟨2000, 300, .fin 0⟩ : TrendRow).year))).map
        (fun x => x.cover.getD 0)).sum := by
  refine ⟨(C4_aggregation_shape cleanScenario3).1, (C4_aggregation_shape cleanScenario3).2.2.1 2000,
    by decide, ?_⟩
  exact (C4_aggregation_shape cleanScenario3).2.2.2 _ (by decide)

/-! Section: Claim C7: the Aggregator's load error contract -/

/-- Counterexample to C7 as stated: a present file whose header lacks all
of Year, Region, Forest_Cover_ha is loaded successfully — `load` returns
the table instead of failing with a FormatError-equivalent. -/
theorem C7_counterexample :
    load_cleaned_data (some csvMissingCols) = .ok csvMissingCols ∧
    ¬ ("Year" ∈ csvMissingCols.header ∨ "Region" ∈ csvMissingCols.header ∨
        "Forest_Cover_ha" ∈ csvMissingCols.header) := by
  refine ⟨rfl, ?_⟩
  intro h
  rcases h with h | h | h <;> simp [csvMissingCols] at h

/-- C7 (amended): `load_cleaned_data` fails with a
NotFoundError-equivalent when the input file is absent; when the file is
present it returns the parsed table unconditionally — required columns are
not validated at load time (missing columns surface only downstream). -/
theorem C7_load_contract :
    load_cleaned_data none = .error .fileNotFound ∧
    ∀ f : CsvFile, load_cleaned_data (some f) = .ok f :=
  ⟨rfl, fun _ => rfl⟩

/-! Section: Claim C8: empty input -/

/-- C8 — Empty-input behavior: an empty Clean Table yields a Global
Trend Table with zero rows, and the chart built from it is the empty/blank
chart (every series empty); both computations are total functions, so
nothing is raised. -/
theorem C8_empty_input :
    compute_global_trend ([] : List CleanRow) = [] ∧
    plot_global_trend (compute_global_trend ([] : List CleanRow)) = ⟨[], [], [], [], []⟩ :=
  ⟨rfl, rfl⟩

/-! Section: Claim C10: unguarded division by a zero total -/

/-- C10 — Unguarded division in year-over-year change: on the Clean
Table `[{2000,A,0},{2001,A,5}]` — total 0 in 2000, positive total in 2001 —
the 2001 row's YoY_Change_pct is the float `+inf` (`PdFloat.pinf`), not a
finite value, an error, or 0; the `fillna(0)` step replaces only the first
row's NaN. -/
theorem C10_divzero_infinity :
    compute_global_trend cleanC10 = [⟨2000, 0, .fin 0⟩, ⟨2001, 5, .pinf⟩] ∧
    totalFor cleanC10 2000 = 0 ∧ 0 < totalFor cleanC10 2001 := by decide

end Forest
